import Mathlib

/-!
Shallow embedding of `src/backend/oculomics/inference.py` (the AURA multi-task
retinal-image inference engine) and proofs about its claims.

Modelling conventions:
* Machine floats are modelled as rationals; `F.softmax`'s exponential is an
  abstract parameter `qexp : Rat → Rat` of the environment (the only property of
  `exp` the code relies on is positivity, taken as a hypothesis where needed).
* Python exceptions are modelled by `Except PyError`; mutation of the
  `OcularInferenceAPI` object is explicit state passing of `ApiState`.
  An operation returns `Except PyError A × ApiState` so that state mutations
  performed before an exception persist, as in Python.
* Python object identity (`id()`) of freshly constructed backbones and heads is
  modelled by a fresh-number supply `nextId` in the state: every construction
  of `FoundationalCVModel` (the ViT backbone) consumes a fresh id.
* The filesystem and the model weights are an abstract read-only `Env`.
-/

/-- Association-list lookup with decidable string keys; model of Python dict
lookup (`d.get(k)` / `k in d`). -/
def alookup {α : Type} (k : String) : List (String × α) → Option α
  | [] => none
  | (k', v) :: rest => if k = k' then some v else alookup k rest

/-- Task kinds from `Config.TASKS` (the first tuple component). -/
inductive TaskKind : Type
  | regression
  | binary
  | multiclass
deriving DecidableEq, Repr

/-- One entry of `Config.TASKS`: `(Type, Num_Classes/Output_Dim, Column_Name)`. -/
structure TaskSpec : Type where
  kind : TaskKind
  numClasses : Nat
  column : String
deriving DecidableEq, Repr

/-- `Config.TASKS`, in source order. -/
def TASKS : List (String × TaskSpec) :=
  [ ("Age", ⟨TaskKind.regression, 1, "age"⟩),
    ("Gender", ⟨TaskKind.binary, 2, "sex"⟩),
    ("Diabetes", ⟨TaskKind.binary, 2, "diabetes"⟩),
    ("ICDR", ⟨TaskKind.multiclass, 5, "final_icdr"⟩),
    ("Edema", ⟨TaskKind.binary, 2, "final_edema"⟩),
    ("Hypertension", ⟨TaskKind.binary, 2, "systemic_hypertension"⟩),
    ("Cardiovascular_Risk", ⟨TaskKind.binary, 2, "vascular_disease"⟩),
    ("AMI", ⟨TaskKind.binary, 2, "acute_myocardial_infarction"⟩),
    ("Neuropathy", ⟨TaskKind.binary, 2, "neuropathy"⟩),
    ("Nephropathy", ⟨TaskKind.binary, 2, "nephropathy"⟩) ]

/-- The Python exceptions the inference module can raise, up to the granularity
its handlers distinguish: `ValueError` (unknown task), `FileNotFoundError`
(missing checkpoint, and also a missing image file in `Image.open`), and any
other `Exception` (undecodable image, backbone download failure, tensor-shape
errors). `run_full_profile` handles `FileNotFoundError` and `Exception`
separately. -/
inductive PyError : Type
  | valueError
  | fileNotFoundError
  | otherException
deriving DecidableEq, Repr

/-- A loaded `FoundationalCVModelWithClassifier`: the ids record Python object
identity of the freshly built backbone (`FoundationalCVModel`) and of the
wrapping classifier model; `numClasses` is the classifier output dimension. -/
structure LoadedModel : Type where
  task : String
  backboneId : Nat
  headId : Nat
  numClasses : Nat
deriving DecidableEq, Repr

/-- Mutable state of an `OcularInferenceAPI` object plus the observable
side effects: `cache` is `self.models_cache` (insertion-ordered dict as an
association list), `nextId` the fresh-object-id supply, `ckptReads` counts
`torch.load` calls (checkpoint I/O), `written` the heatmap files written by
`plt.savefig`. -/
structure ApiState : Type where
  cache : List (String × LoadedModel)
  nextId : Nat
  ckptReads : Nat
  written : List String
deriving DecidableEq, Repr

/-- State of a freshly constructed `OcularInferenceAPI`. -/
def initState : ApiState := ⟨[], 0, 0, []⟩

/-- Read-only environment: filesystem contents and the numeric behaviour of
the loaded weights. `checkpointExists t` is `(checkpoint_dir / best_model_t.pth).exists()`;
`imageExists p` / `imageDecodable p` describe `Image.open(p)`;
`logits p t i` is the i-th output of task t's classifier on image p;
`backboneOk` is whether `ViTModel.from_pretrained` succeeds;
`qexp` models the floating-point exponential used by `F.softmax`. -/
structure Env : Type where
  backboneOk : Bool
  checkpointExists : String → Bool
  imageExists : String → Bool
  imageDecodable : String → Bool
  logits : String → String → Nat → Rat
  qexp : Rat → Rat

/-- `OcularInferenceAPI.load_model` (inference.py lines 139-168).
On a cache hit the cached model is returned with no further work. Otherwise the
task is looked up in `Config.TASKS` (`ValueError` if absent), a fresh backbone
and classifier are constructed (consuming two fresh object ids), the checkpoint
path is tested (`FileNotFoundError` if missing), `torch.load` reads the weights
(counted in `ckptReads`) and the model is inserted into the cache. -/
def load_model (env : Env) (s : ApiState) (task : String) :
    Except PyError LoadedModel × ApiState :=
  match alookup task s.cache with
  | some m => (Except.ok m, s)
  | none =>
    match alookup task TASKS with
    | none => (Except.error PyError.valueError, s)
    | some spec =>
      if env.backboneOk then
        let m : LoadedModel :=
          ⟨task, s.nextId, s.nextId + 1, spec.numClasses⟩
        let s1 : ApiState := { s with nextId := s.nextId + 2 }
        if env.checkpointExists task then
          (Except.ok m,
            { s1 with
              cache := s1.cache ++ [(task, m)],
              ckptReads := s1.ckptReads + 1 })
        else (Except.error PyError.fileNotFoundError, s1)
      else (Except.error PyError.otherException, s)

/-- Result of decoding one prediction (inference.py lines 196-207):
a raw scalar for regression, or a class index with its probability. -/
inductive PredResult : Type
  | scalar (v : Rat)
  | classProb (cls : Nat) (prob : Rat)
deriving DecidableEq, Repr

/-- `F.softmax(preds, dim=1)` on one row, with the exponential abstracted. -/
def softmax (e : Rat → Rat) (l : List Rat) : List Rat :=
  l.map (fun x => e x / (l.map e).sum)

/-- `np.argmax` on a row: index of the first occurrence of the maximum
(0 on the empty list, where NumPy raises instead; `decodePred` guards that). -/
def argmaxIdx : List Rat → Nat
  | [] => 0
  | [_] => 0
  | x :: y :: rest =>
    let j := argmaxIdx (y :: rest)
    if x < (y :: rest).getD j 0 then j + 1 else 0

/-- Decoding of the raw classifier outputs `preds` (inference.py lines 196-207).
Regression: `preds.item()` — raises unless the tensor has exactly one element.
Otherwise: softmax, first arg-max class, and that class's probability; NumPy's
`argmax` raises on an empty row. -/
def decodePred (e : Rat → Rat) (kind : TaskKind) (preds : List Rat) :
    Except PyError PredResult :=
  match kind with
  | TaskKind.regression =>
    match preds with
    | [v] => Except.ok (PredResult.scalar v)
    | _ => Except.error PyError.otherException
  | _ =>
    match preds with
    | [] => Except.error PyError.otherException
    | _ =>
      let probs := softmax e preds
      Except.ok (PredResult.classProb (argmaxIdx probs) (probs.getD (argmaxIdx probs) 0))

/-- Characters of the last path component (after the last slash). -/
def lastComp (cs : List Char) : List Char :=
  cs.foldl (fun acc c => if c = '/' then [] else acc ++ [c]) []

/-- Index of the last occurrence of a character, if any. -/
def lastIdxOf (c : Char) (cs : List Char) : Option Nat :=
  (cs.foldl (fun (p : Nat × Option Nat) ch =>
    (p.1 + 1, if ch = c then some p.1 else p.2)) (0, none)).2

/-- `pathlib.Path(p).stem`: the last component without its suffix; the suffix
starts at the last dot provided that dot is neither the first nor the last
character of the name. -/
def pathStem (p : String) : String :=
  let name := lastComp p.toList
  match lastIdxOf '.' name with
  | none => String.mk name
  | some i =>
    if 0 < i ∧ i + 1 < name.length then String.mk (name.take i) else String.mk name

/-- The heatmap artifact path `Config.CAM_DIR / (stem _ task _cam.png)`
(inference.py lines 233-234); `Config.CAM_DIR` is rendered as a fixed prefix. -/
def camSavePath (imgPath task : String) : String :=
  "artifacts/gradcam_inference/" ++ pathStem imgPath ++ "_" ++ task ++ "_cam.png"

/-- `OcularInferenceAPI.predict_and_explain` (inference.py lines 180-239).
Loads the model (propagating its exceptions), reads the task's registry entry
(`Config.TASKS[task_name]`, a `KeyError` if absent), opens the image
(`FileNotFoundError` if the path does not exist, a decode `Exception` if the
file is not a readable image), runs the forward pass producing `numClasses`
logits, decodes them by task kind, runs GradCAM++ and saves the heatmap. -/
def predict_and_explain (env : Env) (s : ApiState) (imgPath task : String) :
    Except PyError (PredResult × String) × ApiState :=
  match load_model env s task with
  | (Except.error e, s1) => (Except.error e, s1)
  | (Except.ok m, s1) =>
    match alookup task TASKS with
    | none => (Except.error PyError.otherException, s1)
    | some spec =>
      if env.imageExists imgPath then
        if env.imageDecodable imgPath then
          let preds := (List.range m.numClasses).map (env.logits imgPath task)
          match decodePred env.qexp spec.kind preds with
          | Except.error e => (Except.error e, s1)
          | Except.ok res =>
            let path := camSavePath imgPath task
            (Except.ok (res, path), { s1 with written := s1.written ++ [path] })
        else (Except.error PyError.otherException, s1)
      else (Except.error PyError.fileNotFoundError, s1)

/-- One entry of the mapping returned by `run_full_profile`
(inference.py lines 254-257). -/
structure ProfileEntry : Type where
  prediction : PredResult
  attention_map : String
deriving DecidableEq, Repr

/-- The per-task loop of `run_full_profile` (inference.py lines 251-261):
`except FileNotFoundError` and `except Exception` both skip the task, so every
`PyError` is swallowed and the loop always runs to completion. -/
def runTasks (env : Env) (imgPath : String) :
    List String → List (String × ProfileEntry) × ApiState →
    List (String × ProfileEntry) × ApiState
  | [], acc => acc
  | task :: rest, (results, s) =>
    match predict_and_explain env s imgPath task with
    | (Except.ok (pred, path), s1) =>
      runTasks env imgPath rest (results ++ [(task, ⟨pred, path⟩)], s1)
    | (Except.error _, s1) => runTasks env imgPath rest (results, s1)

/-- `OcularInferenceAPI.run_full_profile` (inference.py lines 241-264). -/
def run_full_profile (env : Env) (s : ApiState) (imgPath : String) :
    List (String × ProfileEntry) × ApiState :=
  runTasks env imgPath (TASKS.map Prod.fst) ([], s)

/-- A rank-3 tensor `[batch, tokens, channels]`, modelled by its shape and an
indexing function (values outside the shape are irrelevant). -/
structure Tensor3 : Type where
  batch : Nat
  tokens : Nat
  channels : Nat
  val : Nat → Nat → Nat → Rat

/-- A rank-4 tensor, modelled by its shape and an indexing function. -/
structure Tensor4 : Type where
  d0 : Nat
  d1 : Nat
  d2 : Nat
  d3 : Nat
  val : Nat → Nat → Nat → Nat → Rat

/-- `tensor[:, 1:, :]`: drop the first (CLS/summary) token. -/
def dropFirstToken (t : Tensor3) : Tensor3 :=
  ⟨t.batch, t.tokens - 1, t.channels, fun b i c => t.val b (i + 1) c⟩

/-- `.reshape(B, h, w, C)` of a `[B, T, C]` tensor, in row-major order: defined
exactly when the element counts agree, and then position `(b, i, j, c)` holds
the source element at the same per-batch flat offset. -/
def reshape3to4 (t : Tensor3) (h w : Nat) : Option Tensor4 :=
  if t.batch * t.tokens * t.channels = t.batch * (h * w) * t.channels then
    some ⟨t.batch, h, w, t.channels, fun b i j c =>
      t.val b (((i * w + j) * t.channels + c) / t.channels)
        (((i * w + j) * t.channels + c) % t.channels)⟩
  else none

/-- `.transpose(2, 3)`: swap the last two axes. -/
def transpose23 (t : Tensor4) : Tensor4 :=
  ⟨t.d0, t.d1, t.d3, t.d2, fun a b c d => t.val a b d c⟩

/-- `.transpose(1, 2)`: swap the middle axes. -/
def transpose12 (t : Tensor4) : Tensor4 :=
  ⟨t.d0, t.d2, t.d1, t.d3, fun a b c d => t.val a c b d⟩

/-- `reshape_transform_vit` (inference.py lines 115-119): drop the CLS token,
reshape to `(B, height, width, C)` with the hard-coded default grid 14 x 14,
then `transpose(2, 3)` and `transpose(1, 2)` into `(B, C, height, width)`. -/
def reshape_transform_vit (tensor : Tensor3) (height : Nat := 14)
    (width : Nat := 14) : Option Tensor4 :=
  (reshape3to4 (dropFirstToken tensor) height width).map
    (fun r => transpose12 (transpose23 r))

/-- The square root of a perfect square, by bounded search. -/
def exactSqrt (n : Nat) : Option Nat :=
  (List.range (n + 1)).find? (fun s => s * s == n)

/-- Modelled from the spec: the token-to-grid transform as §4.6 words it, with
the square grid's side length inferred from the remaining token count
(196 remaining tokens give a 14 x 14 grid) instead of the hard-coded default
of `reshape_transform_vit`; it is undefined when the remaining token count is
not a perfect square. -/
def reshape_transform_inferred (tensor : Tensor3) : Option Tensor4 :=
  match exactSqrt (tensor.tokens - 1) with
  | some side =>
    (reshape3to4 (dropFirstToken tensor) side side).map
      (fun r => transpose12 (transpose23 r))
  | none => none

/-- A registry entry always decodes: one logit for regression (`.item()`
succeeds), a nonempty row otherwise (`np.argmax` succeeds). -/
def specDecodes (spec : TaskSpec) : Bool :=
  match spec.kind with
  | TaskKind.regression => spec.numClasses == 1
  | _ => spec.numClasses != 0

/-- A task name is registered and its registry entry decodes. -/
def registeredOk (t : String) : Bool :=
  match alookup t TASKS with
  | some spec => specDecodes spec
  | none => false

/-- Environment-level success condition for one task of a profile run begun
with an empty cache: the backbone downloads, the task's checkpoint is on disk,
and the image file exists and decodes. -/
def taskSucceeds (env : Env) (img t : String) : Bool :=
  env.backboneOk && env.checkpointExists t &&
    env.imageExists img && env.imageDecodable img

/-- A concrete environment in which every external dependency succeeds. -/
def envAll : Env :=
  ⟨true, fun _ => true, fun _ => true, fun _ => true, fun _ _ _ => 0, fun _ => 1⟩

/-- A concrete environment whose image file exists but cannot be decoded
(a corrupt/truncated image); everything else succeeds. -/
def envCorrupt : Env :=
  ⟨true, fun _ => true, fun _ => true, fun _ => false, fun _ _ _ => 0, fun _ => 1⟩

/-- A concrete environment whose image path refers to no existing file;
everything else succeeds. -/
def envNoImage : Env :=
  ⟨true, fun _ => true, fun _ => false, fun _ => true, fun _ _ _ => 0, fun _ => 1⟩

/-- A concrete environment in which only the Age checkpoint is missing. -/
def envNoAgeCkpt : Env :=
  ⟨true, fun t => !(t == "Age"), fun _ => true, fun _ => true,
    fun _ _ _ => 0, fun _ => 1⟩

/-- The model produced by the first load of the Age task in `envAll`. -/
def mAge : LoadedModel := ⟨"Age", 0, 1, 1⟩

/-- The state after loading the Age task from `initState` in `envAll`. -/
def sAge : ApiState := ⟨[("Age", mAge)], 2, 1, []⟩

/-- The model produced by the subsequent load of the Gender task in `envAll`. -/
def mGender : LoadedModel := ⟨"Gender", 2, 3, 2⟩

/-- The state after loading Age and then Gender from `initState` in `envAll`. -/
def sAgeGender : ApiState := ⟨[("Age", mAge), ("Gender", mGender)], 4, 2, []⟩

/-- A concrete 197-token single-channel activation tensor. -/
def t197 : Tensor3 := ⟨1, 197, 1, fun _ _ _ => 0⟩

/-- A concrete 10-token tensor: its 9 remaining patch tokens form a 3 x 3
grid, which is a shape the hard-coded 14 x 14 transform rejects. -/
def t10 : Tensor3 := ⟨1, 10, 1, fun _ _ _ => 0⟩

/-- The grid the hard-coded transform produces on `t197`. -/
def r197 : Tensor4 :=
  (reshape_transform_vit t197 14 14).getD ⟨0, 0, 0, 0, fun _ _ _ _ => 0⟩

instance {ε α : Type} [DecidableEq ε] [DecidableEq α] : DecidableEq (Except ε α) := fun x y =>
  match x, y with
  | Except.ok a, Except.ok b =>
    if h : a = b then isTrue (by rw [h])
    else isFalse (fun hh => h (Except.ok.inj hh))
  | Except.error a, Except.error b =>
    if h : a = b then isTrue (by rw [h])
    else isFalse (fun hh => h (Except.error.inj hh))
  | Except.ok _, Except.error _ => isFalse (fun hh => Except.noConfusion hh)
  | Except.error _, Except.ok _ => isFalse (fun hh => Except.noConfusion hh)

lemma alookup_append_self {α : Type} {k : String} {l : List (String × α)} {v : α}
    (h : alookup k l = none) : alookup k (l ++ [(k, v)]) = some v := by
  induction l with
  | nil => simp [alookup]
  | cons p rest ih =>
    rw [alookup] at h
    by_cases hk : k = p.1
    · simp [hk] at h
    · rw [if_neg hk] at h
      rw [List.cons_append, alookup, if_neg hk]
      exact ih h

lemma alookup_append_ne {α : Type} {k k' : String} (l : List (String × α)) (v : α)
    (h : k ≠ k') : alookup k (l ++ [(k', v)]) = alookup k l := by
  induction l with
  | nil => simp [alookup, h]
  | cons p rest ih =>
    rw [List.cons_append, alookup, alookup]
    by_cases hk : k = p.1
    · simp [hk]
    · rw [if_neg hk, if_neg hk]
      exact ih

lemma alookup_isSome_of_mem_keys {α : Type} {t : String} {l : List (String × α)}
    (h : t ∈ l.map Prod.fst) : ∃ v, alookup t l = some v := by
  induction l with
  | nil => simp at h
  | cons p rest ih =>
    rw [List.map_cons, List.mem_cons] at h
    by_cases hk : t = p.1
    · exact ⟨p.2, by rw [alookup, if_pos hk]⟩
    · rcases h with h | h
      · exact absurd h hk
      · rcases ih h with ⟨v, hv⟩
        exact ⟨v, by rw [alookup, if_neg hk]; exact hv⟩

lemma alookup_eq_none_of_not_mem_keys {α : Type} {t : String} {l : List (String × α)}
    (h : t ∉ l.map Prod.fst) : alookup t l = none := by
  induction l with
  | nil => rfl
  | cons p rest ih =>
    rw [List.map_cons, List.mem_cons] at h
    push_neg at h
    rw [alookup, if_neg h.1]
    exact ih h.2

lemma not_mem_keys_of_alookup_eq_none {α : Type} {t : String} {l : List (String × α)}
    (h : alookup t l = none) : t ∉ l.map Prod.fst := by
  induction l with
  | nil => simp
  | cons p rest ih =>
    rw [alookup] at h
    by_cases hk : t = p.1
    · simp [hk] at h
    · rw [if_neg hk] at h
      rw [List.map_cons, List.mem_cons]
      push_neg
      exact ⟨hk, ih h⟩

lemma argmaxIdx_lt_length : ∀ (l : List Rat), l ≠ [] → argmaxIdx l < l.length
  | [], h => absurd rfl h
  | [_], _ => by simp [argmaxIdx]
  | x :: y :: rest, _ => by
    have ih := argmaxIdx_lt_length (y :: rest) (by simp)
    rw [argmaxIdx]
    by_cases hx : x < (y :: rest).getD (argmaxIdx (y :: rest)) 0
    · rw [if_pos hx]
      simpa using Nat.succ_lt_succ ih
    · rw [if_neg hx]
      simp

lemma getD_le_argmaxIdx : ∀ (l : List Rat) (i : Nat), i < l.length →
    l.getD i 0 ≤ l.getD (argmaxIdx l) 0
  | [], i, hi => by simp at hi
  | [x], i, hi => by
    simp only [List.length_singleton] at hi
    have : i = 0 := Nat.lt_one_iff.mp hi
    subst this
    simp [argmaxIdx]
  | x :: y :: rest, i, hi => by
    have ih := getD_le_argmaxIdx (y :: rest)
    rw [argmaxIdx]
    by_cases hx : x < (y :: rest).getD (argmaxIdx (y :: rest)) 0
    · rw [if_pos hx]
      rw [List.getD_cons_succ]
      match i with
      | 0 => exact le_of_lt (by simpa using hx)
      | Nat.succ k =>
        rw [List.getD_cons_succ]
        exact ih k (by simpa using Nat.lt_of_succ_lt_succ hi)
    · rw [if_neg hx]
      push_neg at hx
      match i with
      | 0 => simp
      | Nat.succ k =>
        rw [List.getD_cons_succ, List.getD_cons_zero]
        exact le_trans (ih k (by simpa using Nat.lt_of_succ_lt_succ hi)) hx

lemma softmax_length (e : Rat → Rat) (l : List Rat) :
    (softmax e l).length = l.length := by
  simp [softmax]

lemma softmax_mem_bounds (e : Rat → Rat) (he : ∀ x, 0 < e x) (l : List Rat)
    (hl : l ≠ []) (y : Rat) (hy : y ∈ softmax e l) : 0 < y ∧ y ≤ 1 := by
  rcases List.mem_map.mp hy with ⟨x, hx, rfl⟩
  have hpos : ∀ z ∈ l.map e, 0 < z := by
    intro z hz
    rcases List.mem_map.mp hz with ⟨w, _, rfl⟩
    exact he w
  have hne : l.map e ≠ [] := by simpa using hl
  have hsum : 0 < (l.map e).sum := List.sum_pos (l.map e) hpos hne
  constructor
  · exact div_pos (he x) hsum
  · rw [div_le_one hsum]
    exact List.single_le_sum (fun z hz => le_of_lt (hpos z hz)) (e x)
      (List.mem_map.mpr ⟨x, hx, rfl⟩)


lemma load_model_hit {env : Env} {s : ApiState} {t : String} {m : LoadedModel}
    (h : alookup t s.cache = some m) : load_model env s t = (Except.ok m, s) := by
  rw [load_model, h]

lemma load_model_miss_ok {env : Env} {s : ApiState} {t : String} {m : LoadedModel}
    {s' : ApiState} (hmiss : alookup t s.cache = none)
    (h : load_model env s t = (Except.ok m, s')) :
    ∃ spec, alookup t TASKS = some spec ∧ env.backboneOk = true ∧
      env.checkpointExists t = true ∧
      m = ⟨t, s.nextId, s.nextId + 1, spec.numClasses⟩ ∧
      s' = ⟨s.cache ++ [(t, m)], s.nextId + 2, s.ckptReads + 1, s.written⟩ := by
  rw [load_model, hmiss] at h
  split at h
  · rename_i m0 hret
    exact absurd hret.symm (by simp)
  · split at h
    · simp at h
    · rename_i spec hreg
      split at h
      · rename_i hbb
        split at h
        · rename_i hck
          simp only [Prod.mk.injEq, Except.ok.injEq] at h
          obtain ⟨hm, hs⟩ := h
          subst hm
          exact ⟨spec, hreg, hbb, hck, rfl, hs.symm⟩
        · simp at h
      · simp at h

lemma load_model_ok_cache {env : Env} {s : ApiState} {t : String} {m : LoadedModel}
    {s' : ApiState} (h : load_model env s t = (Except.ok m, s')) :
    s'.cache = s.cache ∨ s'.cache = s.cache ++ [(t, m)] := by
  cases hmiss : alookup t s.cache with
  | some m0 =>
    rw [load_model_hit hmiss] at h
    simp only [Prod.mk.injEq, Except.ok.injEq] at h
    left
    rw [← h.2]
  | none =>
    obtain ⟨spec, _, _, _, _, hs⟩ := load_model_miss_ok hmiss h
    right
    rw [hs]

lemma load_model_err_state {env : Env} {s : ApiState} {t : String} {e : PyError}
    {s' : ApiState} (h : load_model env s t = (Except.error e, s')) :
    s'.cache = s.cache ∧ s'.ckptReads = s.ckptReads ∧ s'.written = s.written := by
  rw [load_model] at h
  split at h
  · simp at h
  · split at h
    · simp only [Prod.mk.injEq] at h
      rw [← h.2]
      exact ⟨rfl, rfl, rfl⟩
    · split at h
      · split at h
        · simp at h
        · simp only [Prod.mk.injEq] at h
          rw [← h.2]
          exact ⟨rfl, rfl, rfl⟩
      · simp only [Prod.mk.injEq] at h
        rw [← h.2]
        exact ⟨rfl, rfl, rfl⟩

lemma load_model_miss_no_ckpt {env : Env} {s : ApiState} {t : String}
    (hmiss : alookup t s.cache = none) (hck : env.checkpointExists t = false) :
    (∃ e, (load_model env s t).1 = Except.error e) ∧
      (load_model env s t).2.cache = s.cache := by
  cases hreg : alookup t TASKS with
  | none => simp [load_model, hmiss, hreg]
  | some spec =>
    by_cases hbb : env.backboneOk
    · simp [load_model, hmiss, hreg, hbb, hck]
    · simp [load_model, hmiss, hreg, hbb]

lemma load_model_written (env : Env) (s : ApiState) (t : String) :
    (load_model env s t).2.written = s.written := by
  cases hmiss : alookup t s.cache with
  | some m => simp [load_model, hmiss]
  | none =>
    cases hreg : alookup t TASKS with
    | none => simp [load_model, hmiss, hreg]
    | some spec =>
      by_cases hbb : env.backboneOk
      · by_cases hck : env.checkpointExists t
        · simp [load_model, hmiss, hreg, hbb, hck]
        · simp [load_model, hmiss, hreg, hbb, hck]
      · simp [load_model, hmiss, hreg, hbb]

lemma specDecodes_decode_total (e : Rat → Rat) (spec : TaskSpec)
    (hd : specDecodes spec = true) (l : Nat → Rat) :
    ∃ r, decodePred e spec.kind ((List.range spec.numClasses).map l) =
      Except.ok r := by
  cases hk : spec.kind with
  | regression =>
    simp only [specDecodes, hk] at hd
    have h1 : spec.numClasses = 1 := by simpa using hd
    rw [h1]
    exact ⟨PredResult.scalar (l 0), rfl⟩
  | binary =>
    simp only [specDecodes, hk] at hd
    have h0 : spec.numClasses ≠ 0 := by simpa using hd
    cases hp : (List.range spec.numClasses).map l with
    | nil =>
      have := congrArg List.length hp
      simp at this
      exact absurd this h0
    | cons a as =>
      exact ⟨_, rfl⟩
  | multiclass =>
    simp only [specDecodes, hk] at hd
    have h0 : spec.numClasses ≠ 0 := by simpa using hd
    cases hp : (List.range spec.numClasses).map l with
    | nil =>
      have := congrArg List.length hp
      simp at this
      exact absurd this h0
    | cons a as =>
      exact ⟨_, rfl⟩

lemma predict_master (env : Env) (s : ApiState) (img t : String) :
    ((∃ e, (predict_and_explain env s img t).1 = Except.error e) ∧
      (predict_and_explain env s img t).2.written = s.written) ∨
    ((∃ res, (predict_and_explain env s img t).1 =
        Except.ok (res, camSavePath img t)) ∧
      (predict_and_explain env s img t).2.written =
        s.written ++ [camSavePath img t] ∧
      env.imageExists img = true ∧ env.imageDecodable img = true) := by
  cases hl : load_model env s t with
  | mk r s1 =>
    have hw : s1.written = s.written := by
      have h0 := load_model_written env s t
      rw [hl] at h0
      exact h0
    cases r with
    | error e0 =>
      left
      exact ⟨⟨e0, by simp [predict_and_explain, hl]⟩,
        by simp [predict_and_explain, hl, hw]⟩
    | ok m =>
      cases hreg : alookup t TASKS with
      | none =>
        left
        exact ⟨⟨PyError.otherException,
          by simp [predict_and_explain, hl, hreg]⟩,
          by simp [predict_and_explain, hl, hreg, hw]⟩
      | some spec =>
        by_cases hie : env.imageExists img = true
        · by_cases hid : env.imageDecodable img = true
          · cases hdec : decodePred env.qexp spec.kind
                ((List.range m.numClasses).map (env.logits img t)) with
            | error e1 =>
              left
              exact ⟨⟨e1, by simp [predict_and_explain, hl, hreg, hie, hid, hdec]⟩,
                by simp [predict_and_explain, hl, hreg, hie, hid, hdec, hw]⟩
            | ok res =>
              right
              refine ⟨⟨res, ?_⟩, ?_, hie, hid⟩
              · simp [predict_and_explain, hl, hreg, hie, hid, hdec]
              · simp [predict_and_explain, hl, hreg, hie, hid, hdec, hw]
          · left
            exact ⟨⟨PyError.otherException,
              by simp [predict_and_explain, hl, hreg, hie, hid]⟩,
              by simp [predict_and_explain, hl, hreg, hie, hid, hw]⟩
        · left
          exact ⟨⟨PyError.fileNotFoundError,
            by simp [predict_and_explain, hl, hreg, hie]⟩,
            by simp [predict_and_explain, hl, hreg, hie, hw]⟩

lemma predict_state_cache (env : Env) (s : ApiState) (img t : String)
    {r : Except PyError LoadedModel} {s1 : ApiState}
    (hl : load_model env s t = (r, s1)) :
    (predict_and_explain env s img t).2.cache = s1.cache := by
  cases r with
  | error e0 => simp [predict_and_explain, hl]
  | ok m =>
    cases hreg : alookup t TASKS with
    | none => simp [predict_and_explain, hl, hreg]
    | some spec =>
      by_cases hie : env.imageExists img = true
      · by_cases hid : env.imageDecodable img = true
        · cases hdec : decodePred env.qexp spec.kind
              ((List.range m.numClasses).map (env.logits img t)) with
          | error e1 => simp [predict_and_explain, hl, hreg, hie, hid, hdec]
          | ok res => simp [predict_and_explain, hl, hreg, hie, hid, hdec]
        · simp [predict_and_explain, hl, hreg, hie, hid]
      · simp [predict_and_explain, hl, hreg, hie]

lemma predict_cache (env : Env) (s : ApiState) (img t : String) :
    (predict_and_explain env s img t).2.cache = s.cache ∨
      ∃ m, (predict_and_explain env s img t).2.cache = s.cache ++ [(t, m)] := by
  cases hl : load_model env s t with
  | mk r s1 =>
    have hc := predict_state_cache env s img t hl
    cases r with
    | error e0 =>
      left
      rw [hc, (load_model_err_state hl).1]
    | ok m =>
      cases load_model_ok_cache hl with
      | inl h1 => left; rw [hc, h1]
      | inr h1 => right; exact ⟨m, by rw [hc, h1]⟩

lemma load_model_miss_compute (env : Env) (s : ApiState) (t : String)
    (spec : TaskSpec) (hmiss : alookup t s.cache = none)
    (hreg : alookup t TASKS = some spec) (hbb : env.backboneOk = true)
    (hck : env.checkpointExists t = true) :
    load_model env s t =
      (Except.ok ⟨t, s.nextId, s.nextId + 1, spec.numClasses⟩,
        ⟨s.cache ++ [(t, ⟨t, s.nextId, s.nextId + 1, spec.numClasses⟩)],
          s.nextId + 2, s.ckptReads + 1, s.written⟩) := by
  simp [load_model, hmiss, hreg, hbb, hck]

lemma load_model_unknown (env : Env) (s : ApiState) (t : String)
    (hreg : alookup t TASKS = none) (hmiss : alookup t s.cache = none) :
    load_model env s t = (Except.error PyError.valueError, s) := by
  simp [load_model, hmiss, hreg]

lemma predict_unknown (env : Env) (s : ApiState) (img t : String)
    (hreg : alookup t TASKS = none) (hmiss : alookup t s.cache = none) :
    predict_and_explain env s img t = (Except.error PyError.valueError, s) := by
  simp [predict_and_explain, load_model_unknown env s t hreg hmiss]

lemma predict_hit (env : Env) (s : ApiState) (img t : String)
    (hro : registeredOk t = true) (hmiss : alookup t s.cache = none)
    (hsucc : taskSucceeds env img t = true) :
    ∃ res m, predict_and_explain env s img t =
      (Except.ok (res, camSavePath img t),
        ⟨s.cache ++ [(t, m)], s.nextId + 2, s.ckptReads + 1,
          s.written ++ [camSavePath img t]⟩) := by
  have hparts : ((env.backboneOk = true ∧ env.checkpointExists t = true) ∧
      env.imageExists img = true) ∧ env.imageDecodable img = true := by
    simpa [taskSucceeds, Bool.and_eq_true] using hsucc
  obtain ⟨⟨⟨hbb, hck⟩, hie⟩, hid⟩ := hparts
  cases hreg : alookup t TASKS with
  | none =>
    simp only [registeredOk, hreg] at hro
    exact absurd hro (by simp)
  | some spec =>
    have hsd : specDecodes spec = true := by
      simpa only [registeredOk, hreg] using hro
    have hl := load_model_miss_compute env s t spec hmiss hreg hbb hck
    obtain ⟨r, hdec⟩ := specDecodes_decode_total env.qexp spec hsd (env.logits img t)
    refine ⟨r, ⟨t, s.nextId, s.nextId + 1, spec.numClasses⟩, ?_⟩
    simp [predict_and_explain, hl, hreg, hie, hid, hdec]

lemma predict_no_image (env : Env) (s : ApiState) (img t : String)
    (himg : env.imageExists img = false) (hbb : env.backboneOk = true)
    (ht : t ∈ TASKS.map Prod.fst) :
    (predict_and_explain env s img t).1 = Except.error PyError.fileNotFoundError := by
  obtain ⟨spec, hreg⟩ := alookup_isSome_of_mem_keys ht
  cases hmiss : alookup t s.cache with
  | some m =>
    have hl : load_model env s t = (Except.ok m, s) := load_model_hit hmiss
    simp [predict_and_explain, hl, hreg, himg]
  | none =>
    by_cases hck : env.checkpointExists t = true
    · have hl := load_model_miss_compute env s t spec hmiss hreg hbb hck
      simp [predict_and_explain, hl, hreg, himg]
    · have hck2 : env.checkpointExists t = false := by simpa using hck
      have hl : load_model env s t =
          (Except.error PyError.fileNotFoundError,
            ⟨s.cache, s.nextId + 2, s.ckptReads, s.written⟩) := by
        simp [load_model, hmiss, hreg, hbb, hck2]
      simp [predict_and_explain, hl]

lemma predict_ok_load_ok {env : Env} {s : ApiState} {img t : String}
    {res : PredResult × String} {s2 : ApiState}
    (h : predict_and_explain env s img t = (Except.ok res, s2)) :
    ∃ m s1, load_model env s t = (Except.ok m, s1) := by
  cases hl : load_model env s t with
  | mk r s1 =>
    cases r with
    | error e0 =>
      simp only [predict_and_explain, hl] at h
      simp at h
    | ok m => exact ⟨m, s1, rfl⟩

lemma runTasks_all_skipped (env : Env) (img : String)
    (hfail : env.imageExists img = false ∨ env.imageDecodable img = false) :
    ∀ (tasks : List String) (acc : List (String × ProfileEntry)) (s : ApiState),
      (runTasks env img tasks (acc, s)).1 = acc ∧
        (runTasks env img tasks (acc, s)).2.written = s.written
  | [], acc, s => ⟨rfl, rfl⟩
  | u :: rest, acc, s => by
    rcases predict_master env s img u with ⟨⟨e, he⟩, hw⟩ | ⟨⟨res, hr⟩, hw, hie, hid⟩
    · cases hp : predict_and_explain env s img u with
      | mk r1 s1 =>
        cases r1 with
        | ok v =>
          rw [hp] at he
          simp at he
        | error e1 =>
          rw [hp] at hw
          have ih := runTasks_all_skipped env img hfail rest acc s1
          simp only [runTasks, hp]
          exact ⟨ih.1, ih.2.trans hw⟩
    · rcases hfail with hf | hf
      · rw [hf] at hie
        exact absurd hie (by simp)
      · rw [hf] at hid
        exact absurd hid (by simp)

lemma runTasks_omits (env : Env) (img t : String)
    (hck : env.checkpointExists t = false) :
    ∀ (tasks : List String) (acc : List (String × ProfileEntry)) (s : ApiState),
      alookup t acc = none → alookup t s.cache = none →
      alookup t (runTasks env img tasks (acc, s)).1 = none
  | [], _, _, hacc, _ => hacc
  | u :: rest, acc, s, hacc, hcache => by
    by_cases hu : u = t
    · subst hu
      obtain ⟨⟨e, he⟩, hc⟩ := load_model_miss_no_ckpt hcache hck
      cases hl : load_model env s u with
      | mk r s1 =>
        cases r with
        | ok m =>
          rw [hl] at he
          simp at he
        | error e1 =>
          have hp : predict_and_explain env s img u = (Except.error e1, s1) := by
            simp [predict_and_explain, hl]
          rw [hl] at hc
          simp only [runTasks, hp]
          exact runTasks_omits env img u hck rest acc s1 hacc (hc ▸ hcache)
    · have hut : t ≠ u := fun hh => hu hh.symm
      cases hp : predict_and_explain env s img u with
      | mk r1 s1 =>
        have hcache1 : alookup t s1.cache = none := by
          rcases predict_cache env s img u with h1 | ⟨m, h1⟩
          · rw [hp] at h1
            rw [h1]
            exact hcache
          · rw [hp] at h1
            rw [h1, alookup_append_ne _ _ hut]
            exact hcache
        cases r1 with
        | ok v =>
          obtain ⟨pred, path⟩ := v
          have hacc1 : alookup t (acc ++ [(u, ⟨pred, path⟩)]) = none := by
            rw [alookup_append_ne _ _ hut]
            exact hacc
          simp only [runTasks, hp]
          exact runTasks_omits env img t hck rest _ s1 hacc1 hcache1
        | error e1 =>
          simp only [runTasks, hp]
          exact runTasks_omits env img t hck rest acc s1 hacc hcache1

lemma runTasks_keys_filter (env : Env) (img : String) :
    ∀ (tasks : List String) (acc : List (String × ProfileEntry)) (s : ApiState),
      tasks.Nodup →
      (∀ u ∈ tasks, registeredOk u = true) →
      (∀ u ∈ tasks, alookup u s.cache = none) →
      (runTasks env img tasks (acc, s)).1.map Prod.fst =
        acc.map Prod.fst ++ tasks.filter (fun u => taskSucceeds env img u)
  | [], acc, s, _, _, _ => by simp [runTasks]
  | u :: rest, acc, s, hnd, hro, hca => by
    obtain ⟨hnu, hndr⟩ := List.nodup_cons.mp hnd
    by_cases hsucc : taskSucceeds env img u = true
    · obtain ⟨res, m, hp⟩ := predict_hit env s img u
        (hro u (List.mem_cons_self u rest)) (hca u (List.mem_cons_self u rest)) hsucc
      simp only [runTasks, hp]
      have hca1 : ∀ v ∈ rest,
          alookup v (s.cache ++ [(u, m)]) = none := by
        intro v hv
        have hvu : v ≠ u := fun hh => hnu (hh ▸ hv)
        rw [alookup_append_ne _ _ hvu]
        exact hca v (List.mem_cons_of_mem _ hv)
      rw [runTasks_keys_filter env img rest _ _ hndr
        (fun v hv => hro v (List.mem_cons_of_mem _ hv)) hca1]
      rw [List.filter_cons_of_pos (by simpa using hsucc)]
      simp
    · rcases predict_master env s img u with ⟨⟨e, he⟩, hw⟩ | ⟨⟨res, hr⟩, hw, hie, hid⟩
      · cases hp : predict_and_explain env s img u with
        | mk r1 s1 =>
          cases r1 with
          | ok v =>
            rw [hp] at he
            simp at he
          | error e1 =>
            simp only [runTasks, hp]
            have hca1 : ∀ v ∈ rest, alookup v s1.cache = none := by
              intro v hv
              have hvu : v ≠ u := fun hh => hnu (hh ▸ hv)
              rcases predict_cache env s img u with h1 | ⟨m, h1⟩
              · rw [hp] at h1
                rw [h1]
                exact hca v (List.mem_cons_of_mem _ hv)
              · rw [hp] at h1
                rw [h1, alookup_append_ne _ _ hvu]
                exact hca v (List.mem_cons_of_mem _ hv)
            rw [runTasks_keys_filter env img rest acc s1 hndr
              (fun v hv => hro v (List.mem_cons_of_mem _ hv)) hca1]
            rw [List.filter_cons_of_neg (by simpa using hsucc)]
      · cases hp : predict_and_explain env s img u with
        | mk r1 s1 =>
          cases r1 with
          | error e1 =>
            rw [hp] at hr
            simp at hr
          | ok v =>
            obtain ⟨m, s0, hl⟩ := predict_ok_load_ok hp
            obtain ⟨spec, hreg, hbb, hckx, _, _⟩ :=
              load_model_miss_ok (hca u (List.mem_cons_self u rest)) hl
            have hcontra : taskSucceeds env img u = true := by
              simp [taskSucceeds, hbb, hckx, hie, hid]
            exact absurd hcontra hsucc

lemma runTasks_entries (env : Env) (img : String) :
    ∀ (tasks : List String) (acc : List (String × ProfileEntry)) (s : ApiState),
      (∀ u ∈ tasks, u ∈ TASKS.map Prod.fst) →
      (∀ p ∈ acc, p.1 ∈ TASKS.map Prod.fst ∧
        p.2.attention_map = camSavePath img p.1 ∧ p.2.attention_map ∈ s.written) →
      ∀ p ∈ (runTasks env img tasks (acc, s)).1,
        p.1 ∈ TASKS.map Prod.fst ∧ p.2.attention_map = camSavePath img p.1 ∧
          p.2.attention_map ∈ (runTasks env img tasks (acc, s)).2.written
  | [], acc, s, _, hacc => fun p hp => hacc p hp
  | u :: rest, acc, s, htasks, hacc => by
    rcases predict_master env s img u with ⟨⟨e, he⟩, hw⟩ | ⟨⟨res, hr⟩, hw, hie, hid⟩
    · cases hp : predict_and_explain env s img u with
      | mk r1 s1 =>
        cases r1 with
        | ok v =>
          rw [hp] at he
          simp at he
        | error e1 =>
          rw [hp] at hw
          simp only [runTasks, hp]
          apply runTasks_entries env img rest acc s1
            (fun v hv => htasks v (List.mem_cons_of_mem _ hv))
          intro p hpmem
          obtain ⟨h1, h2, h3⟩ := hacc p hpmem
          exact ⟨h1, h2, by rw [hw]; exact h3⟩
    · cases hp : predict_and_explain env s img u with
      | mk r1 s1 =>
        cases r1 with
        | error e1 =>
          rw [hp] at hr
          simp at hr
        | ok v =>
          rw [hp] at hr hw
          have hr2 : (Except.ok v : Except PyError (PredResult × String)) =
              Except.ok (res, camSavePath img u) := by
            simpa using hr
          obtain rfl := Except.ok.inj hr2
          have hw2 : s1.written = s.written ++ [camSavePath img u] := by
            simpa using hw
          simp only [runTasks, hp]
          apply runTasks_entries env img rest _ s1
            (fun w hwm => htasks w (List.mem_cons_of_mem _ hwm))
          intro p hpmem
          rw [List.mem_append] at hpmem
          rcases hpmem with hpm | hpm
          · obtain ⟨h1, h2, h3⟩ := hacc p hpm
            refine ⟨h1, h2, ?_⟩
            rw [hw2]
            exact List.mem_append_left _ h3
          · have hpeq : p = (u, ⟨res, camSavePath img u⟩) := by
              simpa using hpm
            subst hpeq
            refine ⟨htasks u (List.mem_cons_self u rest), rfl, ?_⟩
            rw [hw2]
            exact List.mem_append_right _ (by simp)

/-- C3: for every registered task, a successful first `load_model` caches the
model, and a second call returns that same cached instance with the state
(cache, fresh-id supply, checkpoint-read count, written artifacts) entirely
unchanged — the second call performs no checkpoint I/O, so starting from a
state in which the task was uncached, exactly one checkpoint read happens. -/
theorem load_model_idempotent (env : Env) (s : ApiState) (t : String)
    (m : LoadedModel) (s' : ApiState)
    (hmiss : alookup t s.cache = none)
    (h : load_model env s t = (Except.ok m, s')) :
    load_model env s' t = (Except.ok m, s') ∧
      s'.ckptReads = s.ckptReads + 1 := by
  obtain ⟨spec, hreg, hbb, hck, hm, hs⟩ := load_model_miss_ok hmiss h
  constructor
  · apply load_model_hit
    rw [hs]
    exact alookup_append_self hmiss
  · rw [hs]

/-- Witness for C3 at a concrete input: loading Age twice from a fresh API
returns the cached model unchanged after a single checkpoint read. -/
theorem load_model_idempotent_witness :
    load_model envAll sAge "Age" = (Except.ok mAge, sAge) ∧
      sAge.ckptReads = initState.ckptReads + 1 :=
  load_model_idempotent envAll initState "Age" mAge sAge rfl rfl

/-- C2 counterexample: after loading Age and then Gender from a fresh API, the
cache holds models whose backbones are distinct objects — the cached models do
not all share one backbone, refuting the claim at this concrete input. -/
theorem backbone_shared_counterexample :
    ¬ (∀ p1 ∈ (load_model envAll (load_model envAll initState "Age").2
          "Gender").2.cache,
        ∀ p2 ∈ (load_model envAll (load_model envAll initState "Age").2
          "Gender").2.cache,
        p1.2.backboneId = p2.2.backboneId) := by
  decide

/-- C2 amended: `load_model` constructs a fresh backbone on every cache miss,
so the backbone is loaded once per task rather than once per process: two
consecutive cache-miss loads produce models holding distinct backbone
instances (each gets the next fresh object id). -/
theorem load_model_backbone_fresh (env : Env) (s : ApiState) (t1 t2 : String)
    (m1 m2 : LoadedModel) (s1 s2 : ApiState)
    (h1miss : alookup t1 s.cache = none)
    (h1 : load_model env s t1 = (Except.ok m1, s1))
    (h2miss : alookup t2 s1.cache = none)
    (h2 : load_model env s1 t2 = (Except.ok m2, s2)) :
    m1.backboneId = s.nextId ∧ m2.backboneId = s.nextId + 2 ∧
      m1.backboneId ≠ m2.backboneId := by
  obtain ⟨spec1, _, _, _, hm1, hs1⟩ := load_model_miss_ok h1miss h1
  obtain ⟨spec2, _, _, _, hm2, hs2⟩ := load_model_miss_ok h2miss h2
  subst hm1
  subst hm2
  refine ⟨rfl, ?_, ?_⟩
  · rw [hs1]
  · rw [hs1]
    simp

/-- Witness for the amended C2 at a concrete input: the Age and Gender loads
receive backbones 0 and 2 respectively. -/
theorem load_model_backbone_fresh_witness :
    mAge.backboneId = initState.nextId ∧
      mGender.backboneId = initState.nextId + 2 ∧
      mAge.backboneId ≠ mGender.backboneId :=
  load_model_backbone_fresh envAll initState "Age" "Gender" mAge mGender
    sAge sAgeGender rfl rfl rfl rfl

/-- C4: when the checkpoint file for a registered, not-yet-cached task is
missing, `load_model` fails with `FileNotFoundError` (the model-weights-missing
condition) and the cache is left exactly as it was — no entry inserted for the
failing task and no other entry touched — and `run_full_profile` omits that
task from its result instead of aborting. -/
theorem missing_checkpoint_isolated (env : Env) (s : ApiState) (t img : String)
    (spec : TaskSpec)
    (hreg : alookup t TASKS = some spec)
    (hmiss : alookup t s.cache = none)
    (hbb : env.backboneOk = true)
    (hck : env.checkpointExists t = false) :
    (load_model env s t).1 = Except.error PyError.fileNotFoundError ∧
      (load_model env s t).2.cache = s.cache ∧
      alookup t (run_full_profile env s img).1 = none := by
  refine ⟨?_, ?_, ?_⟩
  · simp [load_model, hmiss, hreg, hbb, hck]
  · simp [load_model, hmiss, hreg, hbb, hck]
  · rw [run_full_profile]
    exact runTasks_omits env img t hck (TASKS.map Prod.fst) [] s rfl hmiss

/-- Witness for C4 at a concrete input: with only the Age checkpoint missing,
loading Age fails with `FileNotFoundError`, the cache stays empty, and the
full profile contains no Age entry. -/
theorem missing_checkpoint_isolated_witness :
    (load_model envNoAgeCkpt initState "Age").1 =
        Except.error PyError.fileNotFoundError ∧
      (load_model envNoAgeCkpt initState "Age").2.cache = initState.cache ∧
      alookup "Age" (run_full_profile envNoAgeCkpt initState "img.jpg").1 =
        none :=
  missing_checkpoint_isolated envNoAgeCkpt initState "Age" "img.jpg"
    ⟨TaskKind.regression, 1, "age"⟩ rfl rfl rfl rfl

/-- C9: for a task name absent from the registry (and hence never cached),
`load_model` raises `ValueError` (the unknown-task condition) and returns the
state untouched — nothing is inserted into the cache — and
`predict_and_explain` propagates the same error with the same untouched
state. -/
theorem unknown_task_invalid (env : Env) (s : ApiState) (img t : String)
    (hreg : alookup t TASKS = none)
    (hmiss : alookup t s.cache = none) :
    load_model env s t = (Except.error PyError.valueError, s) ∧
      predict_and_explain env s img t = (Except.error PyError.valueError, s) :=
  ⟨load_model_unknown env s t hreg hmiss,
    predict_unknown env s img t hreg hmiss⟩

/-- Witness for C9 at a concrete input: the unregistered task name Bogus. -/
theorem unknown_task_invalid_witness :
    load_model envAll initState "Bogus" =
        (Except.error PyError.valueError, initState) ∧
      predict_and_explain envAll initState "img.jpg" "Bogus" =
        (Except.error PyError.valueError, initState) :=
  unknown_task_invalid envAll initState "img.jpg" "Bogus" rfl rfl

/-- C10: for an image path that refers to no existing file, `run_full_profile`
returns an empty mapping and raises nothing (in the embedding the per-task
loop is total: both handlers together swallow every error), and the failure
each per-task iteration hits is exactly `FileNotFoundError` — the same value
the orchestrator's first handler interprets as missing model weights — so the
missing input is reported as every task skipped for absent checkpoints. -/
theorem missing_image_skips_all (env : Env) (s : ApiState) (img : String)
    (himg : env.imageExists img = false) :
    (run_full_profile env s img).1 = [] ∧
      ∀ t, t ∈ TASKS.map Prod.fst → env.backboneOk = true →
        (predict_and_explain env s img t).1 =
          Except.error PyError.fileNotFoundError := by
  constructor
  · rw [run_full_profile]
    exact (runTasks_all_skipped env img (Or.inl himg) (TASKS.map Prod.fst)
      [] s).1
  · intro t ht hbb
    exact predict_no_image env s img t himg hbb ht

/-- Witness for C10 at a concrete input: a nonexistent image path yields an
empty profile, and the Age iteration fails with `FileNotFoundError`. -/
theorem missing_image_skips_all_witness :
    (run_full_profile envNoImage initState "missing.jpg").1 = [] ∧
      (predict_and_explain envNoImage initState "missing.jpg" "Age").1 =
        Except.error PyError.fileNotFoundError :=
  ⟨(missing_image_skips_all envNoImage initState "missing.jpg" rfl).1,
    (missing_image_skips_all envNoImage initState "missing.jpg" rfl).2
      "Age" (by decide) rfl⟩

/-- C1 counterexample: on a corrupt (undecodable) image with every checkpoint
present, `run_full_profile` performs ten checkpoint reads — per-task work that
the claim says cannot happen because the decode failure is raised up front —
and then returns normally with an empty mapping (no error escapes) and no
heatmap artifacts written. -/
theorem corrupt_image_counterexample :
    (run_full_profile envCorrupt initState "bad.jpg").1 = [] ∧
      (run_full_profile envCorrupt initState "bad.jpg").2.written = [] ∧
      ¬ (run_full_profile envCorrupt initState "bad.jpg").2.ckptReads =
          initState.ckptReads := by
  decide

/-- C1 amended: `run_full_profile` does not preprocess the image up front; on
an undecodable image every per-task iteration fails inside
`predict_and_explain` and is swallowed by the generic per-task handler, so the
call raises nothing (it is total in the embedding), returns an empty mapping
and writes no heatmap artifacts. -/
theorem run_full_profile_corrupt_image (env : Env) (s : ApiState) (img : String)
    (hdec : env.imageDecodable img = false) :
    (run_full_profile env s img).1 = [] ∧
      (run_full_profile env s img).2.written = s.written := by
  rw [run_full_profile]
  exact ⟨(runTasks_all_skipped env img (Or.inr hdec) (TASKS.map Prod.fst)
      [] s).1,
    (runTasks_all_skipped env img (Or.inr hdec) (TASKS.map Prod.fst) [] s).2⟩

/-- Witness for the amended C1 at a concrete input. -/
theorem run_full_profile_corrupt_image_witness :
    (run_full_profile envCorrupt initState "bad.jpg").1 = [] ∧
      (run_full_profile envCorrupt initState "bad.jpg").2.written =
        initState.written :=
  run_full_profile_corrupt_image envCorrupt initState "bad.jpg" rfl

/-- C7: every entry of the mapping returned by `run_full_profile` is keyed by
a task name that exists in the registry and carries both halves of a complete
result: its attention-map path is exactly the deterministic heatmap path for
that image and task, and that heatmap file was actually written during the
run — a task is fully present or entirely absent, never partial. -/
theorem profile_entries_complete (env : Env) (s : ApiState) (img t : String)
    (entry : ProfileEntry)
    (h : (t, entry) ∈ (run_full_profile env s img).1) :
    t ∈ TASKS.map Prod.fst ∧
      entry.attention_map = camSavePath img t ∧
      entry.attention_map ∈ (run_full_profile env s img).2.written := by
  rw [run_full_profile] at h ⊢
  exact runTasks_entries env img (TASKS.map Prod.fst) [] s
    (fun u hu => hu) (fun p hp => absurd hp (by simp)) (t, entry) h

/-- Witness for C7 at a concrete input: the Age entry of an all-success run. -/
theorem profile_entries_complete_witness :
    ("Age" : String) ∈ TASKS.map Prod.fst ∧
      (⟨PredResult.scalar 0, camSavePath "img.jpg" "Age"⟩ :
          ProfileEntry).attention_map = camSavePath "img.jpg" "Age" ∧
      (⟨PredResult.scalar 0, camSavePath "img.jpg" "Age"⟩ :
          ProfileEntry).attention_map ∈
        (run_full_profile envAll initState "img.jpg").2.written :=
  profile_entries_complete envAll initState "img.jpg" "Age"
    ⟨PredResult.scalar 0, camSavePath "img.jpg" "Age"⟩ (by decide)

/-- C8: starting from a fresh API, the keys of the mapping returned by
`run_full_profile`, in order, are exactly the registry keys filtered by the
per-task success condition — the successful tasks in registry order, whatever
subset was skipped. -/
theorem run_full_profile_order (env : Env) (img : String) :
    (run_full_profile env initState img).1.map Prod.fst =
      (TASKS.map Prod.fst).filter (fun u => taskSucceeds env img u) := by
  rw [run_full_profile]
  rw [runTasks_keys_filter env img (TASKS.map Prod.fst) [] initState
    (by decide) (by decide) (fun u _ => rfl)]
  simp

lemma softmax_argmax_props (e : Rat → Rat) (he : ∀ x, 0 < e x)
    (a : Rat) (as : List Rat) :
    argmaxIdx (softmax e (a :: as)) < (a :: as).length ∧
      0 ≤ (softmax e (a :: as)).getD (argmaxIdx (softmax e (a :: as))) 0 ∧
      (softmax e (a :: as)).getD (argmaxIdx (softmax e (a :: as))) 0 ≤ 1 ∧
      ∀ i, i < (a :: as).length →
        (softmax e (a :: as)).getD i 0 ≤
          (softmax e (a :: as)).getD (argmaxIdx (softmax e (a :: as))) 0 := by
  have hlen : (softmax e (a :: as)).length = (a :: as).length :=
    softmax_length e (a :: as)
  have hne2 : softmax e (a :: as) ≠ [] := by
    intro hcon
    rw [hcon] at hlen
    simp at hlen
  have hlt : argmaxIdx (softmax e (a :: as)) < (softmax e (a :: as)).length :=
    argmaxIdx_lt_length _ hne2
  have hmem : (softmax e (a :: as)).getD (argmaxIdx (softmax e (a :: as))) 0 ∈
      softmax e (a :: as) := by
    rw [List.getD_eq_getElem _ _ hlt]
    exact List.getElem_mem hlt
  have hb := softmax_mem_bounds e he (a :: as) (by simp) _ hmem
  refine ⟨by rw [← hlen]; exact hlt, le_of_lt hb.1, hb.2, ?_⟩
  intro i hi
  exact getD_le_argmaxIdx _ i (by rw [hlen]; exact hi)

/-- C5: decoding obeys the task kind. For a registered regression task
(`preds` has the registry's output dimension) the decoded result is a raw
scalar, never a class/probability pair; for a registered binary or multiclass
task the result is a class/probability pair in which the class index is below
the output dimension, the probability is the softmax component at that class
(hence in [0, 1] when the exponential is positive), and that component is the
maximum — the class is an arg-max of the softmax. -/
theorem decode_respects_kind (e : Rat → Rat) (he : ∀ x, 0 < e x)
    (t : String) (spec : TaskSpec) (hmem : (t, spec) ∈ TASKS)
    (preds : List Rat) (hlen : preds.length = spec.numClasses) :
    (spec.kind = TaskKind.regression →
      ∃ v, decodePred e spec.kind preds = Except.ok (PredResult.scalar v)) ∧
    (spec.kind ≠ TaskKind.regression →
      ∃ c p, decodePred e spec.kind preds =
          Except.ok (PredResult.classProb c p) ∧
        c < spec.numClasses ∧ 0 ≤ p ∧ p ≤ 1 ∧
        p = (softmax e preds).getD c 0 ∧
        ∀ i, i < spec.numClasses → (softmax e preds).getD i 0 ≤ p) := by
  have hsd : specDecodes spec = true := by
    have hall : ∀ p ∈ TASKS, specDecodes p.2 = true := by decide
    exact hall (t, spec) hmem
  constructor
  · intro hk
    have h1 : spec.numClasses = 1 := by
      simp only [specDecodes, hk] at hsd
      simpa using hsd
    rw [h1] at hlen
    obtain ⟨v, rfl⟩ := List.length_eq_one.mp hlen
    rw [hk]
    exact ⟨v, rfl⟩
  · intro hk
    have h0 : spec.numClasses ≠ 0 := by
      cases hkk : spec.kind with
      | regression => exact absurd hkk hk
      | binary =>
        simp only [specDecodes, hkk] at hsd
        simpa using hsd
      | multiclass =>
        simp only [specDecodes, hkk] at hsd
        simpa using hsd
    cases hp : preds with
    | nil =>
      rw [hp] at hlen
      simp at hlen
      exact absurd hlen.symm h0
    | cons a as =>
      subst hp
      obtain ⟨hclt, hge0, hle1, hmax⟩ := softmax_argmax_props e he a as
      have hdec : decodePred e spec.kind (a :: as) =
          Except.ok (PredResult.classProb (argmaxIdx (softmax e (a :: as)))
            ((softmax e (a :: as)).getD (argmaxIdx (softmax e (a :: as))) 0)) := by
        cases hkk : spec.kind with
        | regression => exact absurd hkk hk
        | binary => rfl
        | multiclass => rfl
      refine ⟨argmaxIdx (softmax e (a :: as)),
        (softmax e (a :: as)).getD (argmaxIdx (softmax e (a :: as))) 0,
        hdec, ?_, hge0, hle1, rfl, ?_⟩
      · rw [← hlen]
        exact hclt
      · intro i hi
        exact hmax i (by rw [hlen]; exact hi)

/-- Witness for C5 at a concrete input: the Gender task with logits [0, 1]
and the constant-one exponential. -/
theorem decode_respects_kind_witness :
    ((⟨TaskKind.binary, 2, "sex"⟩ : TaskSpec).kind = TaskKind.regression →
      ∃ v, decodePred (fun _ => (1 : Rat))
          (⟨TaskKind.binary, 2, "sex"⟩ : TaskSpec).kind [0, 1] =
        Except.ok (PredResult.scalar v)) ∧
    ((⟨TaskKind.binary, 2, "sex"⟩ : TaskSpec).kind ≠ TaskKind.regression →
      ∃ c p, decodePred (fun _ => (1 : Rat))
          (⟨TaskKind.binary, 2, "sex"⟩ : TaskSpec).kind [0, 1] =
          Except.ok (PredResult.classProb c p) ∧
        c < (⟨TaskKind.binary, 2, "sex"⟩ : TaskSpec).numClasses ∧
        0 ≤ p ∧ p ≤ 1 ∧
        p = (softmax (fun _ => (1 : Rat)) [0, 1]).getD c 0 ∧
        ∀ i, i < (⟨TaskKind.binary, 2, "sex"⟩ : TaskSpec).numClasses →
          (softmax (fun _ => (1 : Rat)) [0, 1]).getD i 0 ≤ p) :=
  decode_respects_kind (fun _ => (1 : Rat)) (fun _ => one_pos) "Gender"
    ⟨TaskKind.binary, 2, "sex"⟩ (by decide) [0, 1] rfl

/-- C6 counterexample: a 10-token tensor leaves 9 patch tokens — a 3 x 3 grid.
The spec's side-inferred transform succeeds on it, while the code's transform,
whose grid side is the hard-coded default 14, rejects it: the side length is
not inferred from the token count. -/
theorem reshape_side_not_inferred_counterexample :
    reshape_transform_vit t10 14 14 = none ∧
      (reshape_transform_inferred t10).isSome = true :=
  ⟨rfl, rfl⟩

/-- C6 amended: the transform drops the first (summary) token and reshapes the
remaining patch tokens into the fixed (default) 14 x 14 grid, transposed to
(batch, channel, height, width): whenever it succeeds, the output dimensions
are (batch, channels, 14, 14), the element counts satisfy the hard-coded
constraint (so 196 remaining tokens in the nondegenerate case), and the output
at (b, c, i, j) is the input at batch b, token 1 + (i * 14 + j), channel c.
The grid side is a hard-coded parameter, not inferred from the token count. -/
theorem reshape_transform_vit_spec (t : Tensor3) (r : Tensor4)
    (hc : 0 < t.channels)
    (h : reshape_transform_vit t 14 14 = some r) :
    r.d0 = t.batch ∧ r.d1 = t.channels ∧ r.d2 = 14 ∧ r.d3 = 14 ∧
      t.batch * (t.tokens - 1) * t.channels = t.batch * 196 * t.channels ∧
      ∀ b c i j, c < t.channels →
        r.val b c i j = t.val b (1 + (i * 14 + j)) c := by
  rw [reshape_transform_vit] at h
  cases hg : reshape3to4 (dropFirstToken t) 14 14 with
  | none =>
    rw [hg] at h
    simp at h
  | some r0 =>
    rw [hg] at h
    simp only [Option.map_some'] at h
    have hr : r = transpose12 (transpose23 r0) := (Option.some.inj h).symm
    rw [reshape3to4] at hg
    split at hg
    · rename_i hguard
      have hr0 := Option.some.inj hg
      subst hr
      rw [← hr0]
      refine ⟨rfl, rfl, rfl, rfl, ?_, ?_⟩
      · simp only [dropFirstToken] at hguard
        simpa using hguard
      · intro b c i j hcj
        simp only [dropFirstToken, transpose23, transpose12]
        have hdiv : ((i * 14 + j) * t.channels + c) / t.channels =
            i * 14 + j := by
          rw [Nat.add_comm, Nat.add_mul_div_right _ _ hc,
            Nat.div_eq_of_lt hcj, Nat.zero_add]
        have hmod : ((i * 14 + j) * t.channels + c) % t.channels = c := by
          rw [Nat.add_comm, Nat.add_mul_mod_self_right, Nat.mod_eq_of_lt hcj]
        rw [hdiv, hmod, Nat.add_comm]
    · exact absurd hg (by simp)

/-- Witness for the amended C6 at a concrete input: the 197-token
single-channel tensor and the grid the transform computes on it. -/
theorem reshape_transform_vit_spec_witness :
    r197.d0 = t197.batch ∧ r197.d1 = t197.channels ∧
      r197.d2 = 14 ∧ r197.d3 = 14 ∧
      t197.batch * (t197.tokens - 1) * t197.channels =
        t197.batch * 196 * t197.channels ∧
      ∀ b c i j, c < t197.channels →
        r197.val b c i j = t197.val b (1 + (i * 14 + j)) c :=
  reshape_transform_vit_spec t197 r197 (by decide) rfl
